import Mathlib

/-!
Shallow embedding of the Excel-Learning-Walk observation recorder
(src/App.tsx together with the constants and type modules) and proofs of
the specified properties of its save, persistence, CSV export and
feedback-composition operations.
-/

/-- Record of the four boolean teaching-strategy flags (interface
TeachingStrategies in the types module). -/
structure TeachingStrategies where
  miniWhiteboards : Bool
  thinkPairShare : Bool
  dumtums : Bool
  coldCalling : Bool
deriving DecidableEq

/-- Key set of TeachingStrategies; used to index the record the way the
source indexes `strategies[key]`. -/
inductive StrategyKey where
  | miniWhiteboards
  | thinkPairShare
  | dumtums
  | coldCalling
deriving DecidableEq

/-- Dynamic lookup `strategies[key]` of the source. -/
def TeachingStrategies.get (s : TeachingStrategies) : StrategyKey → Bool
  | .miniWhiteboards => s.miniWhiteboards
  | .thinkPairShare => s.thinkPairShare
  | .dumtums => s.dumtums
  | .coldCalling => s.coldCalling

/-- Fixed-order key list STRATEGY_KEYS of the constants module. -/
def STRATEGY_KEYS : List StrategyKey :=
  [.miniWhiteboards, .thinkPairShare, .dumtums, .coldCalling]

/-- Display labels STRATEGY_LABELS of the constants module. -/
def STRATEGY_LABELS : StrategyKey → String
  | .miniWhiteboards => "Use of mini whiteboards"
  | .thinkPairShare => "Think-Pair-Share"
  | .dumtums => "DUMTUMS"
  | .coldCalling => "Cold calling"

/-- Year-group enumeration YEAR_GROUPS of the constants module. -/
def YEAR_GROUPS : List String :=
  ["Year 7", "Year 8", "Year 9", "Year 10", "Year 11"]

/-- Observation record of the types module. The `yearGroup` field is a
string at runtime (a YearGroup label, or the empty sentinel while the
form is being edited), so it is embedded as String. -/
structure Observation where
  id : String
  dateTime : String
  yearGroup : String
  teacherName : String
  observationNotes : String
  strategies : TeachingStrategies
deriving DecidableEq

/-- Value `initialStrategies` of App.tsx: all four flags false. -/
def initialStrategies : TeachingStrategies :=
  { miniWhiteboards := false, thinkPairShare := false,
    dumtums := false, coldCalling := false }

/-- Value produced by `getInitialFormState()` in App.tsx. -/
def getInitialFormState : Observation :=
  { id := "", dateTime := "", yearGroup := "", teacherName := "",
    observationNotes := "", strategies := initialStrategies }

/-- Component state of App.tsx that the claims concern: the saved
collection and the in-progress form state. -/
structure AppState where
  observations : List Observation
  formState : Observation
deriving DecidableEq

/-- Left zero-padding to two digits, as used by the ISO clock model. -/
def pad2 (n : Nat) : String :=
  if n < 10 then "0" ++ toString n else toString n

/-- Left zero-padding to three digits. -/
def pad3 (n : Nat) : String :=
  if n < 10 then "00" ++ toString n
  else if n < 100 then "0" ++ toString n
  else toString n

/-- Left zero-padding to four digits. -/
def pad4 (n : Nat) : String :=
  if n < 10 then "000" ++ toString n
  else if n < 100 then "00" ++ toString n
  else if n < 1000 then "0" ++ toString n
  else toString n

/-- Modelled from the spec: the Gregorian civil date (year, month, day)
for a count of days since 1970-01-01, the calendar arithmetic behind the
environment clock used for ids. -/
def civilFromDays (days : Nat) : Nat × Nat × Nat :=
  let z := days + 719468
  let era := z / 146097
  let doe := z % 146097
  let yoe := (doe - doe / 1460 + doe / 36524 - doe / 146096) / 365
  let doy := doe - (365 * yoe + yoe / 4 - yoe / 100)
  let mp := (5 * doy + 2) / 153
  let d := doy - (153 * mp + 2) / 5 + 1
  let m := if mp < 10 then mp + 3 else mp - 9
  let y := yoe + era * 400
  (if m ≤ 2 then y + 1 else y, m, d)

/-- Modelled from the spec: the id is derived from the current instant by
the environment clock, `new Date().toISOString()`, which renders the
instant (here: milliseconds since the epoch) as
YYYY-MM-DDTHH:MM:SS.mmmZ. -/
def toISOStringModel (millis : Nat) : String :=
  let ms := millis % 1000
  let s := millis / 1000 % 60
  let mi := millis / 60000 % 60
  let h := millis / 3600000 % 24
  let c := civilFromDays (millis / 86400000)
  pad4 c.1 ++ "-" ++ pad2 c.2.1 ++ "-" ++ pad2 c.2.2 ++ "T" ++
    pad2 h ++ ":" ++ pad2 mi ++ ":" ++ pad2 s ++ "." ++ pad3 ms ++ "Z"

/-- Validation gate of App.tsx: both `isFormValid` and the guard at the
top of `handleSave` test that `dateTime`, `teacherName` and `yearGroup`
are truthy, i.e. non-empty strings. -/
def isSaveable (f : Observation) : Bool :=
  !(f.dateTime == "") && !(f.teacherName == "") && !(f.yearGroup == "")

/-- Record built by `handleSave`: the form state with a fresh id,
`\x7b ...formState, id: newId \x7d`. -/
def mkSavedObservation (newId : String) (f : Observation) : Observation :=
  { f with id := newId }

/-- Embedding of `handleSave` of App.tsx, with the clock reading as an
explicit input. When the guard fails the handler alerts and returns with
the state untouched; otherwise it prepends the record
`\x7b ...formState, id: new Date().toISOString() \x7d` and resets the
form. The second component is the alert message, if any. -/
def handleSave (millis : Nat) (st : AppState) : AppState × Option String :=
  if isSaveable st.formState then
    ({ observations :=
         mkSavedObservation (toISOStringModel millis) st.formState :: st.observations,
       formState := getInitialFormState }, none)
  else
    (st, some "Please fill in Date/Time, Teacher Name, and Year Group.")

/-- Embedding of JavaScript `Array.prototype.join(sep)`. -/
def jsJoin (sep : String) : List String → String
  | [] => ""
  | [x] => x
  | x :: y :: t => x ++ sep ++ jsJoin sep (y :: t)

/-- Modelled from the spec: `new Date(dateTime).toLocaleDateString(en-CA)`
renders the date portion of the datetime-local string YYYY-MM-DDTHH:MM
as YYYY-MM-DD, its first ten characters. -/
def dtDate (s : String) : String := ⟨s.data.take 10⟩

/-- Modelled from the spec: the localized hour:minute rendering of the
time portion of the datetime-local string YYYY-MM-DDTHH:MM, its
characters after the T separator. -/
def dtTime (s : String) : String := ⟨(s.data.drop 11).take 5⟩

/-- Per-character action of the global regex replace in
`observationNotes.replace(per-quote, two quotes)`: a double quote is
doubled, every other character passes through. -/
def escQ (c : Char) : List Char :=
  if c = '"' then ['"', '"'] else [c]

/-- Embedding of the global regex replace doubling every double quote. -/
def jsReplaceAllQuotes (s : String) : String := ⟨s.data.flatMap escQ⟩

/-- Value `sanitizedNotes` in `handleExport`: the notes wrapped in double
quotes with every embedded double quote doubled. -/
def sanitizeNotes (notes : String) : String :=
  "\"" ++ jsReplaceAllQuotes notes ++ "\""

/-- Header cell list of `handleExport`; `Object.values(STRATEGY_LABELS)`
enumerates the labels in the fixed key order. -/
def headers : List String :=
  ["Date", "Time", "Year Group", "Teacher Name", "Observation Notes"] ++
    STRATEGY_KEYS.map STRATEGY_LABELS

/-- Cell list of one CSV data row in `handleExport`, before joining. -/
def csvFields (obs : Observation) : List String :=
  [dtDate obs.dateTime, dtTime obs.dateTime, obs.yearGroup, obs.teacherName,
    sanitizeNotes obs.observationNotes] ++
    STRATEGY_KEYS.map (fun k => if obs.strategies.get k then "Y" else "N")

/-- One CSV data row: the cells joined by commas. -/
def csvRow (obs : Observation) : String := jsJoin "," (csvFields obs)

/-- Value `csvString` of `handleExport`: header row and data rows joined
by single newlines. -/
def csvString (observations : List Observation) : String :=
  jsJoin "\n" (jsJoin "," headers :: observations.map csvRow)

/-- Embedding of `handleExport` of App.tsx: with an empty collection it
alerts and produces no artifact, otherwise it produces the CSV string
for download. -/
def handleExport (observations : List Observation) : Except String String :=
  if observations.length = 0 then
    .error "No observations to export."
  else
    .ok (csvString observations)

/-- Value `strategiesList` of `handleEmail`: the checked strategies as
dash-prefixed labels joined by newlines. -/
def strategiesList (s : TeachingStrategies) : String :=
  jsJoin "\n" ((STRATEGY_KEYS.filter (fun k => s.get k)).map
    (fun k => "- " ++ STRATEGY_LABELS k))

/-- Subject line built by `handleEmail`. -/
def feedbackSubject (f : Observation) : String :=
  "Learning Walk Feedback – " ++ f.teacherName ++ " – " ++ dtDate f.dateTime

/-- Body text built by `handleEmail`; the falsy-string alternation
`strategiesList or None-specified` is an emptiness test. -/
def feedbackBody (f : Observation) : String :=
  "Hi " ++ f.teacherName ++
    ",\n\nHere is some feedback from a recent learning walk.\n\nObservation Notes:\n" ++
    f.observationNotes ++ "\n\nTeaching Strategies Observed:\n" ++
    (if strategiesList f.strategies = "" then "None specified"
      else strategiesList f.strategies) ++
    "\n\nBest regards,"

/-- Embedding of `handleEmail` of App.tsx: with a missing teacher name or
date it alerts and composes nothing, otherwise it yields the subject and
body handed to the mail-compose URI. -/
def handleEmail (f : Observation) : Except String (String × String) :=
  if f.teacherName = "" ∨ f.dateTime = "" then
    .error "Please provide a Teacher Name and Date before sending an email."
  else
    .ok (feedbackSubject f, feedbackBody f)

/-- Unfolding of String append to list append on the character data. -/
theorem str_data_append (a b : String) : (a ++ b).data = a.data ++ b.data := rfl

/-- Extensionality for strings via their character data. -/
theorem str_eq_of_data {a b : String} (h : a.data = b.data) : a = b := by
  cases a; cases b; cases h; rfl

/-- The modelled ISO timestamp always ends in Z, hence is never empty. -/
theorem toISOStringModel_ne_empty (millis : Nat) : toISOStringModel millis ≠ "" := by
  intro h
  have h2 := congrArg String.length h
  simp only [toISOStringModel, String.length_append] at h2
  have hz : ("Z" : String).length = 1 := rfl
  have he : ("" : String).length = 0 := rfl
  omega

/-- A sample form state used by witnesses: the end-to-end scenario of the
spec. -/
def sampleForm : Observation :=
  { id := "", dateTime := "2024-03-01T09:00", yearGroup := "Year 8",
    teacherName := "J. Smith", observationNotes := "Good pacing.",
    strategies := initialStrategies }

/-- Projection fact: a save snapshot keeps the dateTime of the form. -/
theorem mkSaved_dateTime (newId : String) (f : Observation) :
    (mkSavedObservation newId f).dateTime = f.dateTime := rfl

/-- Projection fact: a save snapshot keeps the yearGroup of the form. -/
theorem mkSaved_yearGroup (newId : String) (f : Observation) :
    (mkSavedObservation newId f).yearGroup = f.yearGroup := rfl

/-- Projection fact: a save snapshot keeps the teacherName of the form. -/
theorem mkSaved_teacherName (newId : String) (f : Observation) :
    (mkSavedObservation newId f).teacherName = f.teacherName := rfl

/-- Projection fact: a save snapshot keeps the notes of the form. -/
theorem mkSaved_observationNotes (newId : String) (f : Observation) :
    (mkSavedObservation newId f).observationNotes = f.observationNotes := rfl

/-- Projection fact: a save snapshot keeps the strategy set of the form. -/
theorem mkSaved_strategies (newId : String) (f : Observation) :
    (mkSavedObservation newId f).strategies = f.strategies := rfl

/-- Projection fact: the id of a save snapshot is the fresh id. -/
theorem mkSaved_id (newId : String) (f : Observation) :
    (mkSavedObservation newId f).id = newId := rfl

/-- Unfolding fact for a save whose guard passes. -/
theorem handleSave_of_saveable (millis : Nat) (st : AppState)
    (h : isSaveable st.formState = true) :
    handleSave millis st =
      ({ observations :=
           mkSavedObservation (toISOStringModel millis) st.formState :: st.observations,
         formState := getInitialFormState }, none) := by
  simp [handleSave, h]

/-- C1: a save on a saveable form state produces a head record whose id
is non-empty and whose remaining fields equal the corresponding form
fields, the strategy set compared by structural equality. -/
theorem save_creates_record_matching_form (millis : Nat) (st : AppState)
    (h : isSaveable st.formState = true) :
    ∃ o : Observation,
      ((handleSave millis st).1.observations).head? = some o ∧
      o.id ≠ "" ∧
      o.dateTime = st.formState.dateTime ∧
      o.yearGroup = st.formState.yearGroup ∧
      o.teacherName = st.formState.teacherName ∧
      o.observationNotes = st.formState.observationNotes ∧
      o.strategies = st.formState.strategies := by
  refine ⟨mkSavedObservation (toISOStringModel millis) st.formState, ?_, ?_,
    mkSaved_dateTime _ _, mkSaved_yearGroup _ _, mkSaved_teacherName _ _,
    mkSaved_observationNotes _ _, mkSaved_strategies _ _⟩
  · rw [handleSave_of_saveable millis st h]
    rfl
  · rw [mkSaved_id]
    exact toISOStringModel_ne_empty millis

/-- Witness for C1 at the end-to-end sample form. -/
theorem save_creates_record_matching_form_witness :
    ∃ o : Observation,
      ((handleSave 1709283600000 ⟨[], sampleForm⟩).1.observations).head? = some o ∧
      o.id ≠ "" ∧
      o.dateTime = sampleForm.dateTime ∧
      o.yearGroup = sampleForm.yearGroup ∧
      o.teacherName = sampleForm.teacherName ∧
      o.observationNotes = sampleForm.observationNotes ∧
      o.strategies = sampleForm.strategies :=
  save_creates_record_matching_form 1709283600000 ⟨[], sampleForm⟩ (by decide)

/-- C3: a save on a saveable form state yields exactly the new record
prepended to the previous collection, which is otherwise untouched. -/
theorem save_prepends_new_record (millis : Nat) (st : AppState)
    (h : isSaveable st.formState = true) :
    (handleSave millis st).1.observations =
      mkSavedObservation (toISOStringModel millis) st.formState :: st.observations := by
  rw [handleSave_of_saveable millis st h]

/-- Witness for C3 at the end-to-end sample form over a one-element
collection. -/
theorem save_prepends_new_record_witness :
    (handleSave 1709283600000
        ⟨[mkSavedObservation "a" sampleForm], sampleForm⟩).1.observations =
      mkSavedObservation (toISOStringModel 1709283600000) sampleForm ::
        [mkSavedObservation "a" sampleForm] :=
  save_prepends_new_record 1709283600000 ⟨[mkSavedObservation "a" sampleForm], sampleForm⟩
    (by decide)

/-- C7: exporting an empty collection fails with the user-facing message
and produces no CSV artifact. -/
theorem export_empty_collection_fails :
    handleExport [] = Except.error "No observations to export." := rfl

/-- C8: a save attempt with an empty dateTime, teacherName or yearGroup
aborts: the collection and the form state are both unchanged and only an
alert is raised. -/
theorem save_missing_required_field_aborts (millis : Nat) (st : AppState)
    (h : st.formState.dateTime = "" ∨ st.formState.teacherName = "" ∨
      st.formState.yearGroup = "") :
    (handleSave millis st).1.observations = st.observations ∧
    (handleSave millis st).1.formState = st.formState := by
  have hg : isSaveable st.formState = false := by
    rcases h with h | h | h <;> simp [isSaveable, h]
  simp [handleSave, hg]

/-- Witness for C8: the sample form with its year group emptied. -/
theorem save_missing_required_field_aborts_witness :
    (handleSave 0 ⟨[], { sampleForm with yearGroup := "" }⟩).1.observations = [] ∧
    (handleSave 0 ⟨[], { sampleForm with yearGroup := "" }⟩).1.formState =
      { sampleForm with yearGroup := "" } :=
  save_missing_required_field_aborts 0 ⟨[], { sampleForm with yearGroup := "" }⟩
    (Or.inr (Or.inr rfl))

/-- Doubling action of escQ on the quote count of a character list. -/
theorem count_quote_flatMap_escQ (l : List Char) :
    (l.flatMap escQ).count '"' = 2 * l.count '"' := by
  induction l with
  | nil => rfl
  | cons c t ih =>
    by_cases h : c = '"'
    · simp [escQ, h, List.count_cons, ih]
      omega
    · simp [escQ, h, List.count_cons, ih]

/-- C5: the notes cell of every CSV data row is the notes wrapped in
double quotes with every embedded double quote doubled: it is cell five,
begins and ends with a double quote, carries twice the original quote
count plus the two wrappers, and the specified example renders as
required. -/
theorem csv_notes_cell_quoting (obs : Observation) :
    (csvFields obs)[4]? = some (sanitizeNotes obs.observationNotes) ∧
    (sanitizeNotes obs.observationNotes).data.head? = some '"' ∧
    (sanitizeNotes obs.observationNotes).data.getLast? = some '"' ∧
    (sanitizeNotes obs.observationNotes).data.count '"' =
      2 * obs.observationNotes.data.count '"' + 2 ∧
    sanitizeNotes "He said \"great job\"" = "\"He said \"\"great job\"\"\"" := by
  refine ⟨by simp [csvFields], ?_, ?_, ?_, by decide⟩
  · simp [sanitizeNotes, jsReplaceAllQuotes, str_data_append]
  · rw [show (sanitizeNotes obs.observationNotes).data =
      ('"' :: (jsReplaceAllQuotes obs.observationNotes).data) ++ ['"'] from rfl,
      List.getLast?_concat]
  · simp [sanitizeNotes, jsReplaceAllQuotes, str_data_append, List.count_append,
      count_quote_flatMap_escQ]

/-- C6: the trailing four cells of every CSV data row are Y or N flags
for the four strategies in the fixed key order, and the example strategy
set renders as Y,N,Y,N. -/
theorem csv_strategy_cells (obs : Observation) :
    (csvFields obs).drop 5 =
      [if obs.strategies.miniWhiteboards then "Y" else "N",
       if obs.strategies.thinkPairShare then "Y" else "N",
       if obs.strategies.dumtums then "Y" else "N",
       if obs.strategies.coldCalling then "Y" else "N"] ∧
    jsJoin ","
      ((csvFields
        { id := "x", dateTime := "2024-03-01T09:00", yearGroup := "Year 8",
          teacherName := "T", observationNotes := "",
          strategies :=
            { miniWhiteboards := true, thinkPairShare := false,
              dumtums := true, coldCalling := false } }).drop 5) = "Y,N,Y,N" := by
  constructor
  · simp [csvFields, STRATEGY_KEYS, TeachingStrategies.get]
  · decide

/-- C9: with a non-empty teacher name and date, feedback composition
yields the subject Learning Walk Feedback dash teacher dash date, and
with no strategy flag set the body carries the literal text None
specified on a line of its own. -/
theorem email_subject_format_and_default_body (f : Observation)
    (ht : f.teacherName ≠ "") (hd : f.dateTime ≠ "") :
    handleEmail f = Except.ok (feedbackSubject f, feedbackBody f) ∧
    feedbackSubject f =
      "Learning Walk Feedback – " ++ f.teacherName ++ " – " ++ dtDate f.dateTime ∧
    (f.strategies = initialStrategies →
      ∃ pre post : String,
        feedbackBody f = pre ++ "None specified" ++ post ∧
        pre.data.getLast? = some '\n' ∧
        post.data.head? = some '\n') := by
  refine ⟨by simp [handleEmail, ht, hd], rfl, ?_⟩
  intro hs
  have hsl : strategiesList initialStrategies = "" := by decide
  refine ⟨"Hi " ++ f.teacherName ++
    ",\n\nHere is some feedback from a recent learning walk.\n\nObservation Notes:\n" ++
    f.observationNotes ++ "\n\nTeaching Strategies Observed:\n",
    "\n\nBest regards,", ?_, ?_, by decide⟩
  · simp only [feedbackBody, hs, hsl]
    rfl
  · simp only [str_data_append, List.getLast?_append]
    rfl

/-- Witness for C9 at the end-to-end sample form. -/
theorem email_subject_format_and_default_body_witness :
    handleEmail sampleForm =
      Except.ok (feedbackSubject sampleForm, feedbackBody sampleForm) ∧
    feedbackSubject sampleForm =
      "Learning Walk Feedback – " ++ sampleForm.teacherName ++ " – " ++
        dtDate sampleForm.dateTime ∧
    (sampleForm.strategies = initialStrategies →
      ∃ pre post : String,
        feedbackBody sampleForm = pre ++ "None specified" ++ post ∧
        pre.data.getLast? = some '\n' ∧
        post.data.head? = some '\n') :=
  email_subject_format_and_default_body sampleForm (by decide) (by decide)

/-- Splitting a character list at every occurrence of a separator
character, accumulator form. -/
def splitChAux (c : Char) : List Char → List Char → List (List Char)
  | [], acc => [acc.reverse]
  | x :: xs, acc =>
    if x = c then acc.reverse :: splitChAux c xs []
    else splitChAux c xs (x :: acc)

/-- Separator-separated pieces of a character list: the reading of
comma-separated cells and newline-separated lines in the claims. -/
def splitCh (c : Char) (l : List Char) : List (List Char) :=
  splitChAux c l []

/-- Piece count of the accumulator splitter: one more than the separator
count. -/
theorem splitChAux_length (c : Char) (l : List Char) :
    ∀ acc, (splitChAux c l acc).length = l.count c + 1 := by
  induction l with
  | nil => intro acc; simp [splitChAux]
  | cons x xs ih =>
    intro acc
    by_cases h : x = c
    · simp [splitChAux, h, ih, List.count_cons]
    · simp [splitChAux, h, ih, List.count_cons]

/-- Piece count of the splitter: one more than the separator count. -/
theorem splitCh_length (c : Char) (l : List Char) :
    (splitCh c l).length = l.count c + 1 :=
  splitChAux_length c l []

/-- Splitting a separator-free list yields the one piece. -/
theorem splitChAux_no_sep (c : Char) (l : List Char) (h : c ∉ l) :
    ∀ acc, splitChAux c l acc = [acc.reverse ++ l] := by
  induction l with
  | nil => intro acc; simp [splitChAux]
  | cons x xs ih =>
    intro acc
    have hx : ¬x = c := fun he => h (he ▸ List.mem_cons_self x xs)
    have hxs : c ∉ xs := fun hm => h (List.mem_cons_of_mem x hm)
    simp [splitChAux, hx, ih hxs, List.append_assoc]

/-- Splitting past a separator-free prefix emits that prefix as a
piece. -/
theorem splitChAux_append_sep (c : Char) (a rest : List Char) (h : c ∉ a) :
    ∀ acc, splitChAux c (a ++ c :: rest) acc =
      (acc.reverse ++ a) :: splitChAux c rest [] := by
  induction a with
  | nil => intro acc; simp [splitChAux]
  | cons x xs ih =>
    intro acc
    have hx : ¬x = c := fun he => h (he ▸ List.mem_cons_self x xs)
    have hxs : c ∉ xs := fun hm => h (List.mem_cons_of_mem x hm)
    simp [splitChAux, hx, ih hxs, List.append_assoc]

/-- Splitting a join of separator-free pieces at the single-character
separator recovers exactly the pieces. -/
theorem splitCh_jsJoin (c : Char) (sep : String) (hsep : sep.data = [c]) :
    ∀ l : List String, (∀ s ∈ l, c ∉ s.data) →
      splitCh c (jsJoin sep l).data = l.map (fun s => s.data) ∨ l = [] := by
  intro l
  induction l with
  | nil => intro _; exact Or.inr rfl
  | cons x t ih =>
    intro hfree
    left
    cases t with
    | nil =>
      have hx : c ∉ x.data := hfree x (List.mem_cons_self x [])
      simp [jsJoin, splitCh, splitChAux_no_sep c x.data hx]
    | cons y t2 =>
      have hx : c ∉ x.data := hfree x (List.mem_cons_self x _)
      have hrest : ∀ s ∈ y :: t2, c ∉ s.data :=
        fun s hs => hfree s (List.mem_cons_of_mem x hs)
      have ih2 := ih hrest
      rcases ih2 with ih2 | ih2
      · have hd : (x ++ sep ++ jsJoin sep (y :: t2)).data =
            x.data ++ c :: (jsJoin sep (y :: t2)).data := by
          simp [str_data_append, hsep]
        simp only [jsJoin, hd, splitCh, splitChAux_append_sep c x.data _ hx]
        simpa [splitCh] using congrArg (fun ll => x.data :: ll) ih2
      · exact absurd ih2 (by simp)

/-- Comma count of "," as character data. -/
theorem comma_sep_count : (("," : String).data.count ',') = 1 := rfl

/-- Separator-character count of a join: the separators contributed
between pieces plus the counts inside the pieces. -/
theorem jsJoin_data_count (sep : String) (c : Char) :
    ∀ l : List String, l ≠ [] →
      ((jsJoin sep l).data.count c) =
        (l.length - 1) * sep.data.count c +
          (l.map (fun s => s.data.count c)).sum := by
  intro l
  induction l with
  | nil => intro h; exact absurd rfl h
  | cons x t ih =>
    intro _
    cases t with
    | nil => simp [jsJoin]
    | cons y t2 =>
      have ih2 := ih (by simp)
      simp only [jsJoin, str_data_append, List.count_append, ih2,
        List.length_cons, List.map_cons, List.sum_cons, Nat.add_sub_cancel]
      ring

/-- Membership in a join comes from the separator or from a piece. -/
theorem jsJoin_mem (sep : String) (ch : Char) :
    ∀ l : List String, ch ∈ (jsJoin sep l).data →
      ch ∈ sep.data ∨ ∃ s ∈ l, ch ∈ s.data := by
  intro l
  induction l with
  | nil => intro h; exact absurd h (by simp [jsJoin])
  | cons x t ih =>
    cases t with
    | nil =>
      intro h
      exact Or.inr ⟨x, List.mem_cons_self x [], h⟩
    | cons y t2 =>
      intro h
      rw [show jsJoin sep (x :: y :: t2) = x ++ sep ++ jsJoin sep (y :: t2) from rfl,
        str_data_append, str_data_append] at h
      rcases List.mem_append.mp h with h1 | h2
      · rcases List.mem_append.mp h1 with ha | hb
        · exact Or.inr ⟨x, List.mem_cons_self x _, ha⟩
        · exact Or.inl hb
      · rcases ih h2 with hs | ⟨s, hsm, hsc⟩
        · exact Or.inl hs
        · exact Or.inr ⟨s, List.mem_cons_of_mem x hsm, hsc⟩

/-- C10: the yearGroup and teacherName cells go into the data row
verbatim with no quoting, so any teacher name holding a comma makes the
data row split into more comma-separated cells than the nine header
cells. -/
theorem csv_name_comma_breaks_column_count (obs : Observation)
    (h : ',' ∈ obs.teacherName.data) :
    (csvFields obs)[2]? = some obs.yearGroup ∧
    (csvFields obs)[3]? = some obs.teacherName ∧
    (splitCh ',' (jsJoin "," headers).data).length = 9 ∧
    9 < (splitCh ',' (csvRow obs).data).length := by
  refine ⟨by simp [csvFields], by simp [csvFields], by decide, ?_⟩
  have h9 : (csvFields obs).length = 9 := by
    simp [csvFields, STRATEGY_KEYS]
  have hcount := jsJoin_data_count "," ',' (csvFields obs)
    (by simp [csvFields])
  have hmem : obs.teacherName ∈ csvFields obs := by
    simp [csvFields]
  have hin : obs.teacherName.data.count ',' ∈
      (csvFields obs).map (fun s => s.data.count ',') :=
    List.mem_map_of_mem _ hmem
  have hle : obs.teacherName.data.count ',' ≤
      ((csvFields obs).map (fun s => s.data.count ',')).sum :=
    List.single_le_sum (fun x _ => Nat.zero_le x) _ hin
  have hpos : 0 < obs.teacherName.data.count ',' := List.count_pos_iff.mpr h
  rw [show csvRow obs = jsJoin "," (csvFields obs) from rfl, splitCh_length,
    hcount, h9, comma_sep_count]
  omega

/-- Witness for C10 at a teacher name holding a comma. -/
theorem csv_name_comma_breaks_column_count_witness :
    (csvFields { sampleForm with teacherName := "Smith, Jane" })[2]? =
      some { sampleForm with teacherName := "Smith, Jane" }.yearGroup ∧
    (csvFields { sampleForm with teacherName := "Smith, Jane" })[3]? =
      some { sampleForm with teacherName := "Smith, Jane" }.teacherName ∧
    (splitCh ',' (jsJoin "," headers).data).length = 9 ∧
    9 < (splitCh ','
      (csvRow { sampleForm with teacherName := "Smith, Jane" }).data).length :=
  csv_name_comma_breaks_column_count { sampleForm with teacherName := "Smith, Jane" }
    (by decide)

/-- Condition of the amended C4: none of the four raw observation fields
that enter the CSV row holds a newline character. -/
abbrev rowFieldsNewlineFree (o : Observation) : Prop :=
  '\n' ∉ o.dateTime.data ∧ '\n' ∉ o.yearGroup.data ∧
    '\n' ∉ o.teacherName.data ∧ '\n' ∉ o.observationNotes.data

/-- Strategy cells never hold a newline. -/
theorem ynCell_no_newline (b : Bool) :
    '\n' ∉ (if b then ("Y" : String) else "N").data := by
  cases b <;> decide

/-- The header row holds no newline character. -/
theorem header_no_newline : '\n' ∉ (jsJoin "," headers).data := by decide

/-- A data row of an observation with newline-free fields holds no
newline character. -/
theorem csvRow_no_newline (o : Observation) (h : rowFieldsNewlineFree o) :
    '\n' ∉ (csvRow o).data := by
  obtain ⟨h1, h2, h3, h4⟩ := h
  intro hmem
  rcases jsJoin_mem "," '\n' (csvFields o) hmem with hsep | ⟨s, hs, hc⟩
  · exact absurd hsep (by decide)
  · simp only [csvFields, STRATEGY_KEYS, List.map_cons, List.map_nil,
      List.cons_append, List.nil_append, List.mem_cons, List.not_mem_nil,
      or_false] at hs
    rcases hs with rfl | rfl | rfl | rfl | rfl | rfl | rfl | rfl | rfl
    · exact h1 (List.mem_of_mem_take (by simpa [dtDate] using hc))
    · have hc2 : '\n' ∈ (o.dateTime.data.drop 11).take 5 := by
        simpa [dtTime] using hc
      exact h1 (List.mem_of_mem_drop (List.mem_of_mem_take hc2))
    · exact h2 hc
    · exact h3 hc
    · rw [show sanitizeNotes o.observationNotes =
          ("\"" ++ jsReplaceAllQuotes o.observationNotes) ++ "\"" from rfl,
        str_data_append, str_data_append] at hc
      rcases List.mem_append.mp hc with hc1 | hc2
      · rcases List.mem_append.mp hc1 with hq | hf
        · exact absurd hq (by decide)
        · have hf2 : '\n' ∈ o.observationNotes.data.flatMap escQ := by
            simpa [jsReplaceAllQuotes] using hf
          rcases List.mem_flatMap.mp hf2 with ⟨a, ha, hfa⟩
          by_cases haq : a = '"'
          · rw [escQ, if_pos haq] at hfa
            exact absurd hfa (by decide)
          · rw [escQ, if_neg haq] at hfa
            rcases List.mem_singleton.mp hfa with rfl
            exact h4 ha
      · exact absurd hc2 (by decide)
    · exact ynCell_no_newline _ hc
    · exact ynCell_no_newline _ hc
    · exact ynCell_no_newline _ hc
    · exact ynCell_no_newline _ hc

/-- An observation whose notes hold a newline; the counterexample
input. -/
def nlObs : Observation :=
  { id := "x1", dateTime := "2024-03-01T09:00", yearGroup := "Year 8",
    teacherName := "J. Smith", observationNotes := "line one\nline two",
    strategies := initialStrategies }

/-- Counterexample to C4 as stated: a one-record collection whose notes
hold a newline exports to a CSV string of three newline-separated lines,
not 1 + 1. -/
theorem csv_newline_in_notes_breaks_line_count :
    handleExport [nlObs] = Except.ok (csvString [nlObs]) ∧
    (splitCh '\n' (csvString [nlObs]).data).length = 3 ∧
    ¬((splitCh '\n' (csvString [nlObs]).data).length = 1 + [nlObs].length) := by
  refine ⟨rfl, by decide, by decide⟩

/-- C4 (amended): for a non-empty collection whose observations have
newline-free fields, the export succeeds and its CSV string splits at
newlines into exactly the header line followed by one row per
observation in collection order, hence into 1 + length(C) lines. -/
theorem csv_export_line_structure (C : List Observation) (hne : C ≠ [])
    (hfree : ∀ o ∈ C, rowFieldsNewlineFree o) :
    handleExport C = Except.ok (csvString C) ∧
    splitCh '\n' (csvString C).data =
      (jsJoin "," headers).data :: C.map (fun o => (csvRow o).data) ∧
    (splitCh '\n' (csvString C).data).length = 1 + C.length := by
  have hnl : ∀ s ∈ (jsJoin "," headers :: C.map csvRow), '\n' ∉ s.data := by
    intro s hs
    rcases List.mem_cons.mp hs with rfl | hs2
    · exact header_no_newline
    · rcases List.mem_map.mp hs2 with ⟨o, ho, rfl⟩
      exact csvRow_no_newline o (hfree o ho)
  have hsplit :=
    splitCh_jsJoin '\n' "\n" rfl (jsJoin "," headers :: C.map csvRow) hnl
  rcases hsplit with hsplit | habs
  · have h2 : splitCh '\n' (csvString C).data =
        (jsJoin "," headers).data :: C.map (fun o => (csvRow o).data) := by
      rw [show csvString C = jsJoin "\n" (jsJoin "," headers :: C.map csvRow)
        from rfl, hsplit]
      simp [List.map_map, Function.comp]
    have hlen : C.length ≠ 0 := fun h0 => hne (List.length_eq_zero.mp h0)
    refine ⟨by simp [handleExport, hlen], h2, ?_⟩
    rw [h2]
    simp [Nat.add_comm]
  · exact absurd habs (by simp)

/-- Witness for the amended C4 at the one-record end-to-end sample. -/
theorem csv_export_line_structure_witness :
    handleExport [mkSavedObservation "x1" sampleForm] =
      Except.ok (csvString [mkSavedObservation "x1" sampleForm]) ∧
    splitCh '\n' (csvString [mkSavedObservation "x1" sampleForm]).data =
      (jsJoin "," headers).data ::
        [mkSavedObservation "x1" sampleForm].map (fun o => (csvRow o).data) ∧
    (splitCh '\n' (csvString [mkSavedObservation "x1" sampleForm]).data).length =
      1 + [mkSavedObservation "x1" sampleForm].length :=
  csv_export_line_structure [mkSavedObservation "x1" sampleForm] (by simp)
    (by decide)

/-- Lower-case hexadecimal digit, as emitted by the JSON control-code
escape. -/
def hexDigit (n : Nat) : Char :=
  if n < 10 then Char.ofNat (48 + n) else Char.ofNat (87 + n)

/-- Numeric value of a hexadecimal digit character, either case. -/
def hexVal (c : Char) : Option Nat :=
  if 48 ≤ c.toNat ∧ c.toNat ≤ 57 then some (c.toNat - 48)
  else if 97 ≤ c.toNat ∧ c.toNat ≤ 102 then some (c.toNat - 87)
  else if 65 ≤ c.toNat ∧ c.toNat ≤ 70 then some (c.toNat - 55)
  else none

/-- Modelled from the spec: the per-character escaping of JSON string
serialization (JSON.stringify), which the persistence adapter relies on:
quote and backslash are backslash-escaped, the named control codes take
their short escapes, the remaining control codes take a four-digit
unicode escape, and everything else passes through. -/
def escJsonChar (c : Char) : List Char :=
  if c = '"' then ['\\', '"']
  else if c = '\\' then ['\\', '\\']
  else if c = '\x08' then ['\\', 'b']
  else if c = '\x0c' then ['\\', 'f']
  else if c = '\n' then ['\\', 'n']
  else if c = '\r' then ['\\', 'r']
  else if c = '\t' then ['\\', 't']
  else if c.toNat < 32 then
    ['\\', 'u', '0', '0', hexDigit (c.toNat / 16), hexDigit (c.toNat % 16)]
  else [c]

/-- JSON string literal for a string value: quote, escaped body, quote. -/
def encJsonStringChars (s : String) : List Char :=
  '"' :: (s.data.flatMap escJsonChar ++ ['"'])

/-- JSON boolean literal. -/
def encBoolChars (b : Bool) : List Char :=
  if b then "true".data else "false".data

/-- JSON object literal for the strategy record, keys in insertion
order as JSON.stringify emits them. -/
def encStrategiesChars (st : TeachingStrategies) : List Char :=
  "\x7b\"miniWhiteboards\":".data ++ encBoolChars st.miniWhiteboards ++
    ",\"thinkPairShare\":".data ++ encBoolChars st.thinkPairShare ++
    ",\"dumtums\":".data ++ encBoolChars st.dumtums ++
    ",\"coldCalling\":".data ++ encBoolChars st.coldCalling ++ "\x7d".data

/-- Key-prefix literal opening an observation object. -/
def openKeyId : List Char := "\x7b\"id\":".data

/-- Key literal before the dateTime member. -/
def keyDateTime : List Char := ",\"dateTime\":".data

/-- Key literal before the yearGroup member. -/
def keyYearGroup : List Char := ",\"yearGroup\":".data

/-- Key literal before the teacherName member. -/
def keyTeacherName : List Char := ",\"teacherName\":".data

/-- Key literal before the observationNotes member. -/
def keyNotes : List Char := ",\"observationNotes\":".data

/-- Key literal before the strategies member. -/
def keyStrategies : List Char := ",\"strategies\":".data

/-- Closing brace literal. -/
def closeBr : List Char := "\x7d".data

/-- JSON object literal for one observation, members in the insertion
order of the record. -/
def encObservationChars (o : Observation) : List Char :=
  openKeyId ++ encJsonStringChars o.id ++
    keyDateTime ++ encJsonStringChars o.dateTime ++
    keyYearGroup ++ encJsonStringChars o.yearGroup ++
    keyTeacherName ++ encJsonStringChars o.teacherName ++
    keyNotes ++ encJsonStringChars o.observationNotes ++
    keyStrategies ++ encStrategiesChars o.strategies ++ closeBr

/-- Comma-led tail items of a JSON array of observations. -/
def encSepChars : List Observation → List Char
  | [] => []
  | o :: t => ',' :: (encObservationChars o ++ encSepChars t)

/-- Body of a JSON array of observations up to and including the closing
bracket. -/
def encArrayChars : List Observation → List Char
  | [] => [']']
  | o :: t => encObservationChars o ++ (encSepChars t ++ [']'])

/-- Modelled from the spec: JSON.stringify of the observation collection,
the exact string the persistence adapter writes to the durable slot. -/
def encodeObservations (l : List Observation) : String :=
  ⟨'[' :: encArrayChars l⟩

/-- Backslash escape decoding of the single-character JSON escapes. -/
def unescapeChar (e : Char) : Option Char :=
  if e = '"' then some '"'
  else if e = '\\' then some '\\'
  else if e = '/' then some '/'
  else if e = 'b' then some '\x08'
  else if e = 'f' then some '\x0c'
  else if e = 'n' then some '\n'
  else if e = 'r' then some '\r'
  else if e = 't' then some '\t'
  else none

/-- Body of a JSON string literal after the opening quote: decodes
escapes up to the closing quote and returns the decoded characters and
the input after the closing quote. -/
def parseStringBody : List Char → Option (List Char × List Char)
  | [] => none
  | c :: cs =>
    if c = '"' then some ([], cs)
    else if c = '\\' then
      match cs with
      | [] => none
      | e :: cs2 =>
        if e = 'u' then
          match cs2 with
          | h1 :: h2 :: h3 :: h4 :: cs3 =>
            match hexVal h1, hexVal h2, hexVal h3, hexVal h4 with
            | some a, some b, some a2, some b2 =>
              (parseStringBody cs3).map fun p =>
                (Char.ofNat (((a * 16 + b) * 16 + a2) * 16 + b2) :: p.1, p.2)
            | _, _, _, _ => none
          | _ => none
        else
          match unescapeChar e with
          | some u => (parseStringBody cs2).map fun p => (u :: p.1, p.2)
          | none => none
    else if c.toNat < 32 then none
    else (parseStringBody cs).map fun p => (c :: p.1, p.2)

/-- JSON string literal value. -/
def parseJsonString : List Char → Option (String × List Char)
  | [] => none
  | c :: cs =>
    if c = '"' then (parseStringBody cs).map fun p => (⟨p.1⟩, p.2)
    else none

/-- Exact-literal consumption. -/
def parseLit : List Char → List Char → Option (List Char)
  | [], input => some input
  | _ :: _, [] => none
  | c :: lit, x :: xs => if x = c then parseLit lit xs else none

/-- JSON boolean literal value. -/
def parseBool (input : List Char) : Option (Bool × List Char) :=
  match parseLit "true".data input with
  | some rest => some (true, rest)
  | none =>
    match parseLit "false".data input with
    | some rest => some (false, rest)
    | none => none

/-- JSON object of the strategy record, in the serialized key order. -/
def parseStrategies (input : List Char) : Option (TeachingStrategies × List Char) :=
  (parseLit "\x7b\"miniWhiteboards\":".data input).bind fun i1 =>
  (parseBool i1).bind fun p1 =>
  (parseLit ",\"thinkPairShare\":".data p1.2).bind fun i2 =>
  (parseBool i2).bind fun p2 =>
  (parseLit ",\"dumtums\":".data p2.2).bind fun i3 =>
  (parseBool i3).bind fun p3 =>
  (parseLit ",\"coldCalling\":".data p3.2).bind fun i4 =>
  (parseBool i4).bind fun p4 =>
  (parseLit "\x7d".data p4.2).map fun i5 =>
  ({ miniWhiteboards := p1.1, thinkPairShare := p2.1,
     dumtums := p3.1, coldCalling := p4.1 }, i5)

/-- JSON object of one observation, in the serialized member order. -/
def parseObservationC (input : List Char) : Option (Observation × List Char) :=
  (parseLit openKeyId input).bind fun i1 =>
  (parseJsonString i1).bind fun p1 =>
  (parseLit keyDateTime p1.2).bind fun i2 =>
  (parseJsonString i2).bind fun p2 =>
  (parseLit keyYearGroup p2.2).bind fun i3 =>
  (parseJsonString i3).bind fun p3 =>
  (parseLit keyTeacherName p3.2).bind fun i4 =>
  (parseJsonString i4).bind fun p4 =>
  (parseLit keyNotes p4.2).bind fun i5 =>
  (parseJsonString i5).bind fun p5 =>
  (parseLit keyStrategies p5.2).bind fun i6 =>
  (parseStrategies i6).bind fun p6 =>
  (parseLit closeBr p6.2).map fun i7 =>
  ({ id := p1.1, dateTime := p2.1, yearGroup := p3.1,
     teacherName := p4.1, observationNotes := p5.1,
     strategies := p6.1 }, i7)

/-- Comma-led array items up to the closing bracket, with explicit
fuel. -/
def parseItemsRest : Nat → List Char → Option (List Observation × List Char)
  | 0, _ => none
  | _ + 1, [] => none
  | fuel + 1, c :: cs =>
    if c = ']' then some ([], cs)
    else if c = ',' then
      (parseObservationC cs).bind fun p =>
        (parseItemsRest fuel p.2).map fun q => (p.1 :: q.1, q.2)
    else none

/-- Modelled from the spec: JSON.parse restricted to the grammar the
serializer emits, an array of observation objects with fixed member
order and no whitespace; the whole input must be consumed. -/
def jsonParseObservations (s : String) : Option (List Observation) :=
  match s.data with
  | [] => none
  | c :: cs =>
    if c = '[' then
      if cs = [']'] then some []
      else
        (parseItemsRest (cs.length + 1) (',' :: cs)).bind fun r =>
          if r.2 = [] then some r.1 else none
    else none

/-- Modelled from the spec: the persistence save effect serializes the
whole collection and overwrites the durable slot. -/
def saveObservations (C : List Observation) : Option String :=
  some (encodeObservations C)

/-- Modelled from the spec: the persistence load effect; a missing or
empty slot and a failed parse both leave the initial empty collection. -/
def loadObservations (slot : Option String) : List Observation :=
  match slot with
  | none => []
  | some s =>
    if s = "" then []
    else
      match jsonParseObservations s with
      | some l => l
      | none => []

/-- Hexadecimal digits decode back to their value. -/
theorem hexVal_hexDigit : ∀ n < 16, hexVal (hexDigit n) = some n := by decide

/-- Consuming a literal off the front of an input succeeds and leaves
the remainder. -/
theorem parseLit_self_append : ∀ (lit rest : List Char),
    parseLit lit (lit ++ rest) = some rest := by
  intro lit
  induction lit with
  | nil => intro rest; rfl
  | cons c l ih => intro rest; simp [parseLit, ih]

/-- Boolean literals round-trip. -/
theorem parseBool_enc (b : Bool) (rest : List Char) :
    parseBool (encBoolChars b ++ rest) = some (b, rest) := by
  cases b <;> rfl

/-- Strategy objects round-trip. -/
theorem parseStrategies_enc (st : TeachingStrategies) (rest : List Char) :
    parseStrategies (encStrategiesChars st ++ rest) = some (st, rest) := by
  obtain ⟨b1, b2, b3, b4⟩ := st
  cases b1 <;> cases b2 <;> cases b3 <;> cases b4 <;> rfl

/-- Stepping fact: a closing quote ends the string body. -/
theorem psb_quote_stop (X : List Char) :
    parseStringBody ('"' :: X) = some ([], X) := by
  rw [parseStringBody.eq_def]
  simp

/-- Stepping fact: a single-character escape decodes and continues. -/
theorem psb_esc (e u : Char) (X : List Char) (hu : unescapeChar e = some u)
    (hne : ¬e = 'u') :
    parseStringBody ('\\' :: e :: X) =
      (parseStringBody X).map fun p => (u :: p.1, p.2) := by
  rw [parseStringBody.eq_def]
  simp [hne, hu]

/-- Stepping fact: a unicode escape decodes its four hex digits and
continues. -/
theorem psb_unicode (d1 d2 d3 d4 : Char) (a b a2 b2 : Nat) (X : List Char)
    (e1 : hexVal d1 = some a) (e2 : hexVal d2 = some b)
    (e3 : hexVal d3 = some a2) (e4 : hexVal d4 = some b2) :
    parseStringBody ('\\' :: 'u' :: d1 :: d2 :: d3 :: d4 :: X) =
      (parseStringBody X).map fun p =>
        (Char.ofNat (((a * 16 + b) * 16 + a2) * 16 + b2) :: p.1, p.2) := by
  rw [parseStringBody.eq_def]
  simp [e1, e2, e3, e4]

/-- Stepping fact: an ordinary character is consumed verbatim. -/
theorem psb_plain (c : Char) (X : List Char) (h1 : ¬c = '"')
    (h2 : ¬c = '\\') (h8 : ¬c.toNat < 32) :
    parseStringBody (c :: X) =
      (parseStringBody X).map fun p => (c :: p.1, p.2) := by
  rw [parseStringBody.eq_def]
  simp [h1, h2, h8]

/-- Escaped string bodies round-trip: decoding the escaped characters up
to the closing quote recovers the original characters and remainder. -/
theorem parseStringBody_escape (l : List Char) :
    ∀ rest : List Char,
      parseStringBody (l.flatMap escJsonChar ++ ('"' :: rest)) = some (l, rest) := by
  induction l with
  | nil =>
    intro rest
    simpa using psb_quote_stop rest
  | cons c t ih =>
    intro rest
    rw [List.flatMap_cons, List.append_assoc]
    simp only [escJsonChar]
    split_ifs with h1 h2 h3 h4 h5 h6 h7 h8
    · subst h1
      simp [psb_esc '"' '"' _ rfl (by decide), ih]
    · subst h2
      simp [psb_esc '\\' '\\' _ rfl (by decide), ih]
    · subst h3
      simp [psb_esc 'b' '\x08' _ rfl (by decide), ih]
    · subst h4
      simp [psb_esc 'f' '\x0c' _ rfl (by decide), ih]
    · subst h5
      simp [psb_esc 'n' '\n' _ rfl (by decide), ih]
    · subst h6
      simp [psb_esc 'r' '\x0d' _ rfl (by decide), ih]
    · subst h7
      simp [psb_esc 't' '\t' _ rfl (by decide), ih]
    · have hd1 : c.toNat / 16 < 16 := by omega
      have hd2 : c.toNat % 16 < 16 := by omega
      rw [show (['\\', 'u', '0', '0', hexDigit (c.toNat / 16),
          hexDigit (c.toNat % 16)] : List Char) ++
          (t.flatMap escJsonChar ++ ('"' :: rest)) =
          '\\' :: 'u' :: '0' :: '0' :: hexDigit (c.toNat / 16) ::
            hexDigit (c.toNat % 16) :: (t.flatMap escJsonChar ++ ('"' :: rest))
          from rfl,
        psb_unicode _ _ _ _ 0 0 (c.toNat / 16) (c.toNat % 16) _
          (by decide) (by decide)
          (hexVal_hexDigit _ hd1) (hexVal_hexDigit _ hd2), ih]
      have hc : ((0 * 16 + 0) * 16 + c.toNat / 16) * 16 + c.toNat % 16 =
          c.toNat := by omega
      have hc2 : c.toNat / 16 * 16 + c.toNat % 16 = c.toNat := by omega
      simp [hc, hc2, Char.ofNat_toNat]
    · rw [show ([c] : List Char) ++ (t.flatMap escJsonChar ++ ('"' :: rest)) =
          c :: (t.flatMap escJsonChar ++ ('"' :: rest)) from rfl,
        psb_plain c _ h1 h2 h8, ih]
      simp

/-- JSON string literals round-trip. -/
theorem parseJsonString_enc (s : String) (rest : List Char) :
    parseJsonString (encJsonStringChars s ++ rest) = some (s, rest) := by
  have h : encJsonStringChars s ++ rest =
      '"' :: (s.data.flatMap escJsonChar ++ ('"' :: rest)) := by
    simp [encJsonStringChars]
  rw [h, parseJsonString.eq_def]
  simp [parseStringBody_escape]

/-- Observation objects round-trip. -/
theorem parseObservationC_enc (o : Observation) (rest : List Char) :
    parseObservationC (encObservationChars o ++ rest) = some (o, rest) := by
  simp only [encObservationChars, List.append_assoc]
  simp [parseObservationC, parseLit_self_append, parseJsonString_enc,
    parseStrategies_enc, Option.some_bind, Option.map_some']

/-- Tail items are at least as long as their item count. -/
theorem encSepChars_length_ge : ∀ t : List Observation,
    t.length ≤ (encSepChars t).length := by
  intro t
  induction t with
  | nil => simp [encSepChars]
  | cons o t2 ih =>
    simp only [encSepChars, List.length_cons, List.length_append]
    omega

/-- Comma-led tail items round-trip under sufficient fuel. -/
theorem parseItemsRest_enc : ∀ (t : List Observation) (fuel : Nat)
    (rest : List Char), t.length < fuel →
    parseItemsRest fuel (encSepChars t ++ (']' :: rest)) = some (t, rest) := by
  intro t
  induction t with
  | nil =>
    intro fuel rest h
    cases fuel with
    | zero => omega
    | succ f =>
      rw [show encSepChars [] ++ (']' :: rest) = ']' :: rest from rfl,
        parseItemsRest.eq_def]
      simp
  | cons o t2 ih =>
    intro fuel rest h
    cases fuel with
    | zero => omega
    | succ f =>
      have hshape : encSepChars (o :: t2) ++ (']' :: rest) =
          ',' :: (encObservationChars o ++ (encSepChars t2 ++ (']' :: rest))) := by
        simp [encSepChars]
      have hih := ih f rest (by simpa using Nat.lt_of_succ_lt_succ h)
      rw [hshape, parseItemsRest.eq_def]
      simp [parseObservationC_enc, hih]

/-- Serialized collections parse back exactly. -/
theorem jsonParse_enc (C : List Observation) :
    jsonParseObservations (encodeObservations C) = some C := by
  cases C with
  | nil => rfl
  | cons o t =>
    have h7 : openKeyId.length = 6 := by decide
    have hlen : 6 ≤ (encObservationChars o).length := by
      simp only [encObservationChars, List.length_append]
      omega
    have hdata : (encodeObservations (o :: t)).data =
        '[' :: (encObservationChars o ++ (encSepChars t ++ [']'])) := rfl
    have hne : encObservationChars o ++ (encSepChars t ++ [']']) ≠ [']'] := by
      intro he
      have hl := congrArg List.length he
      simp [List.length_append] at hl
      omega
    have hge := encSepChars_length_ge t
    have hfuel : (o :: t).length <
        (encObservationChars o ++ (encSepChars t ++ [']'])).length + 1 := by
      simp only [List.length_append, List.length_cons]
      omega
    have hsh : (',' :: (encObservationChars o ++ (encSepChars t ++ [']']))) =
        encSepChars (o :: t) ++ (']' :: ([] : List Char)) := by
      simp [encSepChars]
    rw [jsonParseObservations.eq_def, hdata]
    have hfin := parseItemsRest_enc (o :: t)
      ((encObservationChars o).length + ((encSepChars t).length + 1) + 1) []
      (by simp only [List.length_cons]; omega)
    simp [hne, hsh, hfin]

/-- C2: saving any collection to the durable slot as JSON and loading it
back yields the same collection, field for field and in order. -/
theorem persist_round_trip (C : List Observation) :
    loadObservations (saveObservations C) = C := by
  have hne : encodeObservations C ≠ "" := by
    intro h
    have hd := congrArg String.data h
    rw [show (encodeObservations C).data = '[' :: encArrayChars C from rfl] at hd
    simp at hd
  simp [loadObservations, saveObservations, hne, jsonParse_enc]
